import Mathlib

/-!
Verification of the webnode script generator (src/webnode.py).

Python strings are modeled as `List Char` (every Lean `Char` is a Unicode
scalar value, matching Python's `str` code points except lone surrogates,
which never arise here).  Pure functions from the source are translated
directly; filesystem and network effects are made explicit: HTTP responses
become values of an environment record, and filesystem writes become an
explicit list of `FSOp` effects returned alongside each function's result.
-/

namespace Webnode

/-- Model of Python's `str.isspace` characters relevant to `str.strip()`,
restricted to the ASCII whitespace characters (the only ones that occur in
the fields handled here); `str.strip()` in CPython also strips other Unicode
space code points, which this model omits. -/
def py_isspace (c : Char) : Bool :=
  c == ' ' || c == '\t' || c == '\n' || c == '\r' || c == '\x0b' || c == '\x0c'

/-- Model of Python's `str.strip()`: drop leading and trailing whitespace. -/
def py_strip (s : List Char) : List Char :=
  ((s.dropWhile py_isspace).reverse.dropWhile py_isspace).reverse

/-- The character class `[a-zA-Z0-9._-]` of `sanitize_filename`'s regex. -/
def safeFilenameChar (c : Char) : Bool :=
  c.isLower || c.isUpper || c.isDigit || c == '.' || c == '_' || c == '-'

/-- `sanitize_filename` (webnode.py line 246): `re.sub` with pattern
`[^a-zA-Z0-9._-]` and empty replacement deletes every character outside the
class, keeping the rest in order. -/
def sanitize_filename (s : List Char) : List Char :=
  s.filter safeFilenameChar

/-- `validate_url` (webnode.py line 250): `re.match` with pattern
`^https?://` on `url.strip()` succeeds exactly when the stripped string
starts with `http://` or `https://`. -/
def validate_url (url : List Char) : Bool :=
  "http://".toList.isPrefixOf (py_strip url) ||
  "https://".toList.isPrefixOf (py_strip url)

/-- The regex `^https?://` applied to an arbitrary string. -/
def startsWithHttpScheme (s : List Char) : Bool :=
  "http://".toList.isPrefixOf s || "https://".toList.isPrefixOf s

/-- Model of Python's `urllib.parse.urlparse`, restricted to the two fields
the source reads (`scheme`, `netloc`) and to URLs whose scheme is literally
`http` or `https` (the only ones reachable through `validate_url`, and the
ones every claim quantifies over).  For such URLs CPython returns the
scheme, and the netloc runs from after `//` up to the first `/`, `?` or
`#`.  Other inputs are given scheme `""` and netloc `""`. -/
def urlparse (url : List Char) : List Char × List Char :=
  if "http://".toList.isPrefixOf url then
    ("http".toList, (url.drop 7).takeWhile (fun c => c ≠ '/' && c ≠ '?' && c ≠ '#'))
  else if "https://".toList.isPrefixOf url then
    ("https".toList, (url.drop 8).takeWhile (fun c => c ≠ '/' && c ≠ '?' && c ≠ '#'))
  else
    ([], [])

/-- Model of POSIX `os.path.join` on two components: an absolute second
component discards the first, otherwise a `/` separator is inserted unless
the first component is empty or already ends with `/`. -/
def path_join (a b : List Char) : List Char :=
  if b.head? = some '/' then b
  else if a.isEmpty || a.getLast? = some '/' then a ++ b
  else a ++ '/' :: b

/-- Model of POSIX `os.path.basename`: everything after the last `/`. -/
def basename (p : List Char) : List Char :=
  (p.reverse.takeWhile (fun c => c ≠ '/')).reverse

/-- Normalization helper used only to state claims about paths containing a
`.` segment: split on `/`, drop segments that are exactly `.`, and rejoin.
Two paths with the same normal form name the same filesystem location. -/
def strip_dot_segments (p : List Char) : List Char :=
  "/".toList.intercalate ((p.splitOn '/').filter (fun seg => seg ≠ ".".toList))

/- ---------------------------------------------------------------------
Favicon extraction (webnode.py lines 183-216).
--------------------------------------------------------------------- -/

/-- Model of Python's substring test `needle in haystack`. -/
def py_contains (needle : List Char) : List Char → Bool
  | [] => needle.isEmpty
  | c :: rest => needle.isPrefixOf (c :: rest) || py_contains needle rest

/-- An HTML `<link>` element as consumed by `get_favicon_url`: its `rel`
attribute (absent, or the attribute text; BeautifulSoup's per-token matching
of the multi-valued `rel` attribute agrees with substring search on the
space-joined attribute text, since `"icon"` contains no space) and its
`href` attribute. -/
structure LinkTag where
  rel : Option (List Char)
  href : Option (List Char)
deriving DecidableEq

/-- The predicate `lambda x: x and "icon" in x.lower()` passed to
`soup.find("link", rel=...)`: the `rel` attribute exists, is non-empty, and
contains the substring `icon` case-insensitively. -/
def relMatchesIcon (x : Option (List Char)) : Bool :=
  match x with
  | none => false
  | some r => !r.isEmpty && py_contains ("icon".toList) (r.map Char.toLower)

/-- The combined test of webnode.py lines 187-189: the first `<link>` (in
document order) whose `rel` matches `relMatchesIcon`, provided that element
has a present, non-empty `href` (`if icon_link and icon_link.get("href")`).
Returns that `href`, and `none` when the lookup falls through to the
`/favicon.ico` fallback. -/
def firstIconHref (links : List LinkTag) : Option (List Char) :=
  match links.find? (fun l => relMatchesIcon l.rel) with
  | some l =>
    match l.href with
    | some h => if h.isEmpty then none else some h
    | none => none
  | none => none

/-- The `{parsed.scheme}://{parsed.netloc}/favicon.ico` fallback string. -/
def favicon_fallback (url : List Char) : List Char :=
  (urlparse url).1 ++ "://".toList ++ (urlparse url).2 ++ "/favicon.ico".toList

/-- `get_favicon_url` (webnode.py lines 183-205).  The page fetch and the
HTML parse are summarized by `fetched`: `none` when `requests.get` (or
anything inside the `try` block) raises, `some links` when the body parsed
to a document whose `<link>` elements, in document order, are `links`
(BeautifulSoup's `html.parser` never raises, so unparseable bodies simply
yield whatever link elements were recovered).  The function itself never
raises: the `except` arm is total. -/
def get_favicon_url (url : List Char) (fetched : Option (List LinkTag)) : List Char :=
  match fetched with
  | none => favicon_fallback url
  | some links =>
    match firstIconHref links with
    | some href =>
      if "http".toList.isPrefixOf href then href
      else
        let base := (urlparse url).1 ++ "://".toList ++ (urlparse url).2
        if "/".toList.isPrefixOf href then base ++ href
        else base ++ '/' :: href
    | none => favicon_fallback url

/- ---------------------------------------------------------------------
Script generation (webnode.py lines 222-275): the template, Python string
`repr`, and the escaping performed by `generate_script`.
--------------------------------------------------------------------- -/

/-- Lowercase hexadecimal digit for a value below 16 (as emitted by
CPython's `\xhh`, `\uxxxx` and `\Uxxxxxxxx` escapes). -/
def toHexDigit (n : Nat) : Char :=
  if n < 10 then Char.ofNat (48 + n) else Char.ofNat (87 + n)

/-- `toHex w n`: the `w` lowercase hex digits of `n` (most significant
first), i.e. `n % 16^w` zero-padded to width `w`. -/
def toHex : Nat → Nat → List Char
  | 0, _ => []
  | w + 1, n => toHex w (n / 16) ++ [toHexDigit (n % 16)]

/-- Value of one hexadecimal digit character, upper or lower case. -/
def fromHexDigit (c : Char) : Option Nat :=
  if '0' ≤ c && c ≤ '9' then some (c.toNat - 48)
  else if 'a' ≤ c && c ≤ 'f' then some (c.toNat - 87)
  else if 'A' ≤ c && c ≤ 'F' then some (c.toNat - 55)
  else none

/-- Value of a big-endian string of hexadecimal digits. -/
def fromHex (l : List Char) : Option Nat :=
  l.foldl (fun acc c => acc.bind (fun a => (fromHexDigit c).map (fun d => 16 * a + d)))
    (some 0)

/-- The quote character CPython's `repr` chooses for a string: `'` unless
the string contains `'` and no `"`, in which case `"`. -/
def py_repr_quote (s : List Char) : Char :=
  if s.contains '\'' && !s.contains '"' then '"' else '\''

/-- How CPython's `repr` renders one character of a string quoted with `q`:
backslashes and the quote character are backslash-escaped, tab, newline and
carriage return become `\t`, `\n`, `\r`, printable characters stand for
themselves, and everything else becomes a fixed-width hex escape.  CPython
decides printability from the Unicode category tables; that table is
abstracted as the parameter `printable`, and every theorem below holds for
any choice of it. -/
def py_repr_escape (printable : Char → Bool) (q c : Char) : List Char :=
  if c = '\\' || c = q then ['\\', c]
  else if c = '\t' then ['\\', 't']
  else if c = '\n' then ['\\', 'n']
  else if c = '\r' then ['\\', 'r']
  else if printable c then [c]
  else if c.toNat < 256 then '\\' :: 'x' :: toHex 2 c.toNat
  else if c.toNat < 65536 then '\\' :: 'u' :: toHex 4 c.toNat
  else '\\' :: 'U' :: toHex 8 c.toNat

/-- Model of CPython's `repr` for `str`: pick a quote, escape every
character, and surround with the quote. -/
def py_repr (printable : Char → Bool) (s : List Char) : List Char :=
  py_repr_quote s :: s.flatMap (py_repr_escape printable (py_repr_quote s))
    ++ [py_repr_quote s]

/-- The two leading hex digits of a `\xhh` escape, if present. -/
def readHex2 : List Char → Option Nat
  | a1 :: a2 :: _ => fromHex [a1, a2]
  | _ => none

/-- The four leading hex digits of a `\uxxxx` escape, if present. -/
def readHex4 : List Char → Option Nat
  | a1 :: a2 :: a3 :: a4 :: _ => fromHex [a1, a2, a3, a4]
  | _ => none

/-- The eight leading hex digits of a `\Uxxxxxxxx` escape, if present. -/
def readHex8 : List Char → Option Nat
  | a1 :: a2 :: a3 :: a4 :: a5 :: a6 :: a7 :: a8 :: _ =>
    fromHex [a1, a2, a3, a4, a5, a6, a7, a8]
  | _ => none

mutual

/-- Parser for the body of a Python string literal quoted with `q` (the
text after the opening quote): decodes the escape forms `repr` can emit and
requires the closing quote to end the input.  Returns `none` on any
malformed literal. -/
def unquote (q : Char) : List Char → Option (List Char)
  | [] => none
  | c :: rest =>
    if c = q then (if rest.isEmpty then some [] else none)
    else if c = '\\' then unquoteEsc q rest
    else (unquote q rest).map (fun t => c :: t)
termination_by l => l.length
decreasing_by
  all_goals simp

/-- The text following a backslash inside a literal quoted with `q`. -/
def unquoteEsc (q : Char) : List Char → Option (List Char)
  | [] => none
  | e :: rest2 =>
    if e = '\\' || e = '\'' || e = '"' then (unquote q rest2).map (fun t => e :: t)
    else if e = 't' then (unquote q rest2).map (fun t => '\t' :: t)
    else if e = 'n' then (unquote q rest2).map (fun t => '\n' :: t)
    else if e = 'r' then (unquote q rest2).map (fun t => '\r' :: t)
    else if e = 'x' then
      (readHex2 rest2).bind
        (fun n => (unquote q (rest2.drop 2)).map (fun t => Char.ofNat n :: t))
    else if e = 'u' then
      (readHex4 rest2).bind
        (fun n => (unquote q (rest2.drop 4)).map (fun t => Char.ofNat n :: t))
    else if e = 'U' then
      (readHex8 rest2).bind
        (fun n => (unquote q (rest2.drop 8)).map (fun t => Char.ofNat n :: t))
    else none
termination_by l => l.length
decreasing_by
  all_goals simp [List.length_drop]
  all_goals omega

end

/-- Evaluation of a complete Python string literal, as the Python compiler
would: an opening quote, a body of characters and escapes, a closing
quote. -/
def py_eval_str : List Char → Option (List Char)
  | [] => none
  | q :: rest => if q = '\'' || q = '"' then unquote q rest else none

/-- Model of Python's single-character `str.replace(old, new)` (every use
in the source replaces a one-character pattern, for which `str.replace` is
exactly a character-wise expansion). -/
def str_replace1 (s : List Char) (old : Char) (new : List Char) : List Char :=
  s.flatMap (fun c => if c = old then new else [c])

/-- `SCRIPT_TEMPLATE` (webnode.py lines 222-244) up to the `{title}` hole.
The template contains no literal braces, so `str.format` is literal text
around the three holes, in the order title, icon_path, url. -/
def SCRIPT_TEMPLATE_pre : List Char :=
  ("import sys\nimport os\nfrom PyQt5 import QtWidgets, QtGui\nfrom PyQt5.QtWebEngineWidgets import QWebEngineView\nfrom PyQt5.QtCore import QUrl\n\ndef main():\n    app = QtWidgets.QApplication(sys.argv)\n    win = QtWidgets.QMainWindow()\n    win.setWindowTitle(\"").toList

/-- `SCRIPT_TEMPLATE` between the `{title}` and `{icon_path}` holes. -/
def SCRIPT_TEMPLATE_mid1 : List Char :=
  ("\")\n    win.resize(1024, 768)\n    icon_path = \"").toList

/-- `SCRIPT_TEMPLATE` between the `{icon_path}` and `{url}` holes. -/
def SCRIPT_TEMPLATE_mid2 : List Char :=
  ("\"\n    if icon_path and os.path.exists(icon_path):\n        win.setWindowIcon(QtGui.QIcon(icon_path))\n    view = QWebEngineView()\n    view.setUrl(QUrl(").toList

/-- `SCRIPT_TEMPLATE` after the `{url}` hole. -/
def SCRIPT_TEMPLATE_suf : List Char :=
  ("))\n    win.setCentralWidget(view)\n    win.show()\n    sys.exit(app.exec_())\n\nif __name__ == \"__main__\":\n    main()\n").toList

/-- The string built by `SCRIPT_TEMPLATE.format(...)` in `generate_script`
(webnode.py lines 268-272): the title with `"` backslash-escaped, the icon
path with `\` doubled then `"` backslash-escaped, and `repr(url.strip())`
spliced into the template. -/
def script_from_template (printable : Char → Bool) (title url icon_path : List Char) :
    List Char :=
  SCRIPT_TEMPLATE_pre
    ++ str_replace1 title '"' ['\\', '"']
    ++ SCRIPT_TEMPLATE_mid1
    ++ str_replace1 (str_replace1 icon_path '\\' ['\\', '\\']) '"' ['\\', '"']
    ++ SCRIPT_TEMPLATE_mid2
    ++ py_repr printable (py_strip url)
    ++ SCRIPT_TEMPLATE_suf

/- ---------------------------------------------------------------------
Round-trip of the string-literal escaping performed by `repr`.
--------------------------------------------------------------------- -/

theorem fromHexDigit_toHexDigit : ∀ d : Nat, d < 16 → fromHexDigit (toHexDigit d) = some d := by
  decide

theorem fromHex_append_digit (l : List Char) (c : Char) :
    fromHex (l ++ [c])
      = (fromHex l).bind (fun a => (fromHexDigit c).map (fun d => 16 * a + d)) := by
  rw [fromHex, fromHex, List.foldl_append]
  rfl

theorem fromHex_toHex : ∀ (w n : Nat), n < 16 ^ w → fromHex (toHex w n) = some n := by
  intro w
  induction w with
  | zero =>
    intro n h
    have hn : n = 0 := by omega
    subst hn
    rfl
  | succ w ih =>
    intro n h
    have hdiv : n / 16 < 16 ^ w := by
      rw [Nat.div_lt_iff_lt_mul (by norm_num)]
      rw [← pow_succ]
      exact h
    rw [toHex, fromHex_append_digit, ih (n / 16) hdiv, Option.some_bind,
      fromHexDigit_toHexDigit (n % 16) (by omega), Option.map_some']
    congr 1
    omega

theorem readHex2_toHex_append (v : Nat) (r : List Char) :
    readHex2 (toHex 2 v ++ r) = fromHex (toHex 2 v) := rfl

theorem readHex4_toHex_append (v : Nat) (r : List Char) :
    readHex4 (toHex 4 v ++ r) = fromHex (toHex 4 v) := rfl

theorem readHex8_toHex_append (v : Nat) (r : List Char) :
    readHex8 (toHex 8 v ++ r) = fromHex (toHex 8 v) := rfl

theorem drop2_toHex_append (v : Nat) (r : List Char) : (toHex 2 v ++ r).drop 2 = r := rfl

theorem drop4_toHex_append (v : Nat) (r : List Char) : (toHex 4 v ++ r).drop 4 = r := rfl

theorem drop8_toHex_append (v : Nat) (r : List Char) : (toHex 8 v ++ r).drop 8 = r := rfl

/-- One escaped character followed by correctly-parsed text parses to the
character followed by the decoded text. -/
theorem unquote_esc_cons (printable : Char → Bool) (q c : Char) (T cs : List Char)
    (hq : q = '\'' ∨ q = '"') (hT : unquote q T = some cs) :
    unquote q (py_repr_escape printable q c ++ T) = some (c :: cs) := by
  have hqbs : ¬('\\' = q) := by rcases hq with rfl | rfl <;> decide
  by_cases h1 : c = '\\' ∨ c = q
  · have hcond : (decide (c = '\\') || decide (c = q)) = true := by
      rcases h1 with rfl | rfl <;> simp
    have hE : py_repr_escape printable q c = ['\\', c] := by
      rw [py_repr_escape, if_pos hcond]
    have hcond2 : (decide (c = '\\') || decide (c = '\'') || decide (c = '"')) = true := by
      rcases h1 with rfl | rfl
      · simp
      · rcases hq with rfl | rfl <;> simp
    rw [hE, show ['\\', c] ++ T = '\\' :: c :: T from rfl, unquote, if_neg hqbs,
      if_pos rfl, unquoteEsc, if_pos hcond2, hT]
    rfl
  · have hcond : ¬((decide (c = '\\') || decide (c = q)) = true) := by
      simp only [Bool.or_eq_true, decide_eq_true_eq]
      exact h1
    have hcq : ¬(c = q) := fun h => h1 (Or.inr h)
    have hcbs : ¬(c = '\\') := fun h => h1 (Or.inl h)
    by_cases h2 : c = '\t'
    · subst h2
      have hE : py_repr_escape printable q '\t' = ['\\', 't'] := by
        rw [py_repr_escape, if_neg hcond, if_pos rfl]
      rw [hE, show ['\\', 't'] ++ T = '\\' :: 't' :: T from rfl, unquote, if_neg hqbs,
        if_pos rfl, unquoteEsc, if_neg (by decide), if_pos rfl, hT]
      rfl
    by_cases h3 : c = '\n'
    · subst h3
      have hE : py_repr_escape printable q '\n' = ['\\', 'n'] := by
        rw [py_repr_escape, if_neg hcond, if_neg (by decide), if_pos rfl]
      rw [hE, show ['\\', 'n'] ++ T = '\\' :: 'n' :: T from rfl, unquote, if_neg hqbs,
        if_pos rfl, unquoteEsc, if_neg (by decide), if_neg (by decide), if_pos rfl, hT]
      rfl
    by_cases h4 : c = '\r'
    · subst h4
      have hE : py_repr_escape printable q '\r' = ['\\', 'r'] := by
        rw [py_repr_escape, if_neg hcond, if_neg (by decide), if_neg (by decide),
          if_pos rfl]
      rw [hE, show ['\\', 'r'] ++ T = '\\' :: 'r' :: T from rfl, unquote, if_neg hqbs,
        if_pos rfl, unquoteEsc, if_neg (by decide), if_neg (by decide),
        if_neg (by decide), if_pos rfl, hT]
      rfl
    by_cases h5 : printable c = true
    · have hE : py_repr_escape printable q c = [c] := by
        rw [py_repr_escape, if_neg hcond, if_neg h2, if_neg h3, if_neg h4, if_pos h5]
      rw [hE, show [c] ++ T = c :: T from rfl, unquote, if_neg hcq, if_neg hcbs, hT]
      rfl
    by_cases h6 : c.toNat < 256
    · have hE : py_repr_escape printable q c = '\\' :: 'x' :: toHex 2 c.toNat := by
        rw [py_repr_escape, if_neg hcond, if_neg h2, if_neg h3, if_neg h4, if_neg h5,
          if_pos h6]
      have hb : c.toNat < 16 ^ 2 := by norm_num; exact h6
      rw [hE, List.cons_append, List.cons_append, unquote, if_neg hqbs, if_pos rfl,
        unquoteEsc, if_neg (by decide), if_neg (by decide), if_neg (by decide),
        if_neg (by decide), if_pos rfl, readHex2_toHex_append, fromHex_toHex 2 c.toNat hb,
        Option.some_bind, drop2_toHex_append, hT, Char.ofNat_toNat]
      rfl
    by_cases h7 : c.toNat < 65536
    · have hE : py_repr_escape printable q c = '\\' :: 'u' :: toHex 4 c.toNat := by
        rw [py_repr_escape, if_neg hcond, if_neg h2, if_neg h3, if_neg h4, if_neg h5,
          if_neg h6, if_pos h7]
      have hb : c.toNat < 16 ^ 4 := by norm_num; exact h7
      rw [hE, List.cons_append, List.cons_append, unquote, if_neg hqbs, if_pos rfl,
        unquoteEsc, if_neg (by decide), if_neg (by decide), if_neg (by decide),
        if_neg (by decide), if_neg (by decide), if_pos rfl, readHex4_toHex_append,
        fromHex_toHex 4 c.toNat hb, Option.some_bind, drop4_toHex_append, hT,
        Char.ofNat_toNat]
      rfl
    · have hE : py_repr_escape printable q c = '\\' :: 'U' :: toHex 8 c.toNat := by
        rw [py_repr_escape, if_neg hcond, if_neg h2, if_neg h3, if_neg h4, if_neg h5,
          if_neg h6, if_neg h7]
      have hb : c.toNat < 16 ^ 8 := by
        have h := UInt32.toNat_lt c.val
        norm_num at h ⊢
        exact h
      rw [hE, List.cons_append, List.cons_append, unquote, if_neg hqbs, if_pos rfl,
        unquoteEsc, if_neg (by decide), if_neg (by decide), if_neg (by decide),
        if_neg (by decide), if_neg (by decide), if_neg (by decide), if_pos rfl,
        readHex8_toHex_append, fromHex_toHex 8 c.toNat hb, Option.some_bind,
        drop8_toHex_append, hT, Char.ofNat_toNat]
      rfl

/-- The escaped body of a literal, followed by the closing quote, parses
back to the original string. -/
theorem unquote_flatMap (printable : Char → Bool) (q : Char)
    (hq : q = '\'' ∨ q = '"') (s : List Char) :
    unquote q (s.flatMap (py_repr_escape printable q) ++ [q]) = some s := by
  induction s with
  | nil =>
    rw [List.flatMap_nil, List.nil_append, unquote, if_pos rfl]
    rfl
  | cons c cs ih =>
    rw [List.flatMap_cons, List.append_assoc]
    exact unquote_esc_cons printable q c _ cs hq ih

/-- Evaluating the literal produced by `repr` recovers the string exactly,
for every printability table. -/
theorem py_eval_py_repr (printable : Char → Bool) (s : List Char) :
    py_eval_str (py_repr printable s) = some s := by
  have hq : py_repr_quote s = '\'' ∨ py_repr_quote s = '"' := by
    rw [py_repr_quote]
    split
    · exact Or.inr rfl
    · exact Or.inl rfl
  show (if py_repr_quote s = '\'' || py_repr_quote s = '"' then
      unquote (py_repr_quote s)
        (s.flatMap (py_repr_escape printable (py_repr_quote s)) ++ [py_repr_quote s])
    else none) = some s
  rw [if_pos (by rcases hq with h | h <;> simp [h])]
  exact unquote_flatMap printable (py_repr_quote s) hq s

/- ---------------------------------------------------------------------
Folder handling and the generation pipeline (webnode.py lines 142-177,
207-216, 254-275, 413-436).  Filesystem writes are recorded as explicit
effects; HTTP responses are supplied by an environment record.
--------------------------------------------------------------------- -/

/-- A filesystem effect performed by the pipeline. -/
inductive FSOp where
  | makedirs (path : List Char)
  | write_text (path : List Char) (content : List Char)
  | write_bytes (path : List Char) (content : List Nat)
deriving DecidableEq

/-- The ambient state the source probes: the platform-standard documents
directory (`%USERPROFILE%\Documents` on Windows, `~/Documents` elsewhere),
the home directory listing with per-entry `os.path.isdir` results, whether
the `WebNode Apps` folder already exists, the outcome of the page fetch
(`none` when `requests.get`/parsing raises), the outcome of the icon fetch
(`none` when it raises, otherwise status code and body bytes), and the
Unicode printability table consulted by `repr`. -/
structure Env where
  std_doc : List Char
  std_doc_isdir : Bool
  home : List Char
  home_entries : List (List Char × Bool)
  wn_exists : Bool
  fetched : Option (List LinkTag)
  icon_resp : Option (Nat × List Nat)
  printable : Char → Bool

/-- The candidate list built by `get_documents_folder`'s fallback scan
(webnode.py lines 152-157): full paths of home-directory entries that are
directories and whose name contains `doc` case-insensitively
(`re.search(r'doc', name, re.IGNORECASE)`), in `os.listdir` order. -/
def doc_candidates (env : Env) : List (List Char) :=
  (env.home_entries.filter
      (fun e => e.2 && py_contains ("doc".toList) (e.1.map Char.toLower))).map
    (fun e => path_join env.home e.1)

/-- The length preorder used by `sorted(candidates, key=lambda x: len(x))`
(webnode.py line 160). -/
def byLen (a b : List Char) : Prop :=
  a.length ≤ b.length

instance : DecidableRel byLen := fun a b => Nat.decLe a.length b.length

instance : IsTotal (List Char) byLen := ⟨fun a b => Nat.le_total a.length b.length⟩

instance : IsTrans (List Char) byLen := ⟨fun _ _ _ => Nat.le_trans⟩

/-- `get_documents_folder` (webnode.py lines 142-161): prefer the standard
documents directory when it is a directory; otherwise sort the candidate
paths by length with Python's `sorted(candidates, key=len)` and take the
first; `None` when the scan finds nothing.  Python's `sorted` is the stable
sort by the given key; `List.insertionSort` with the non-strict length
preorder is also stable, and a stable sort's output is determined uniquely
by the input order and the preorder, so the two agree on every input. -/
def get_documents_folder (env : Env) : Option (List Char) :=
  if env.std_doc_isdir then some env.std_doc
  else
    match (List.insertionSort byLen (doc_candidates env)).head? with
    | some p => some p
    | none => none

/-- `get_webnode_apps_folder` (webnode.py lines 163-170): `None` when no
documents folder was found, otherwise `doc_folder/WebNode Apps`, created
when absent. -/
def get_webnode_apps_folder (env : Env) : Option (List Char) × List FSOp :=
  match get_documents_folder env with
  | none => (none, [])
  | some doc_folder =>
    let wn_folder := path_join doc_folder ("WebNode Apps".toList)
    if !env.wn_exists then (some wn_folder, [FSOp.makedirs wn_folder])
    else (some wn_folder, [])

/-- `get_app_folder` (webnode.py lines 172-177):
`os.path.join(base_folder, "app", f"{safe_company}.{safe_name}")`, created
with `os.makedirs(..., exist_ok=True)`. -/
def get_app_folder (base_folder company name : List Char) : List Char × List FSOp :=
  let safe_company := sanitize_filename company
  let safe_name := sanitize_filename name
  let app_folder :=
    path_join (path_join base_folder ("app".toList))
      (safe_company ++ '.' :: safe_name)
  (app_folder, [FSOp.makedirs app_folder])

/-- Effect of `os.makedirs(p, exist_ok=True)` on a set of existing
directories, abstracting intermediate directories: with `exist_ok=True` an
existing directory is never an error, so the operation is total. -/
def makedirs_fs (fs : List (List Char)) (p : List Char) : List (List Char) :=
  if p ∈ fs then fs else p :: fs

/-- `download_favicon` (webnode.py lines 207-216): on a 200 response with a
non-empty body, write the bytes and return `True`; on any other status,
empty body, or raised exception (`resp = none`), return `False`.  The bare
`except`/`pass` makes the function total: it never propagates an error. -/
def download_favicon (resp : Option (Nat × List Nat)) (save_path : List Char) :
    Bool × List FSOp :=
  match resp with
  | some (status, content) =>
    if status == 200 && !content.isEmpty then
      (true, [FSOp.write_bytes save_path content])
    else (false, [])
  | none => (false, [])

/-- `f"webnode.{safe_company}.{safe_name}.py"` (webnode.py line 258). -/
def script_filename (company name : List Char) : List Char :=
  "webnode.".toList ++ sanitize_filename company ++ '.' :: sanitize_filename name
    ++ ".py".toList

/-- `f"webnode.{safe_company}.{safe_name}.ico"` (webnode.py line 259). -/
def icon_filename (company name : List Char) : List Char :=
  "webnode.".toList ++ sanitize_filename company ++ '.' :: sanitize_filename name
    ++ ".ico".toList

/-- `generate_script` (webnode.py lines 254-275): derive the app folder and
the two filenames, resolve and download the favicon (its boolean result is
discarded), render the template, write the script, and return its path. -/
def generate_script (env : Env) (company name title url folder : List Char) :
    List Char × List FSOp :=
  let r := get_app_folder folder company name
  let script_path := path_join r.1 (script_filename company name)
  let icon_path := path_join r.1 (icon_filename company name)
  let _favicon_url := get_favicon_url url env.fetched
  let dl := download_favicon env.icon_resp icon_path
  let script := script_from_template env.printable title url icon_path
  (script_path, r.2 ++ dl.2 ++ [FSOp.write_text script_path script])

/-- `MainWindow.on_generate` (webnode.py lines 413-436): strip the four
fields, validate (emptiness, then the URL prefix rule), locate the apps
folder, run `generate_script`, and report a status message.  The result is
the status label text together with the filesystem effects performed.  The
`try`/`except` around `generate_script` is not modeled because the modeled
filesystem operations are total. -/
def on_generate (env : Env) (company name title url : List Char) :
    List Char × List FSOp :=
  let company := py_strip company
  let name := py_strip name
  let title := py_strip title
  let url := py_strip url
  if company.isEmpty || name.isEmpty || title.isEmpty || url.isEmpty then
    ("All fields are required.".toList, [])
  else if !validate_url url then
    ("URL must start with http:// or https://".toList, [])
  else
    let r := get_webnode_apps_folder env
    match r.1 with
    | none => ("Could not locate a Documents folder.".toList, r.2)
    | some folder =>
      let g := generate_script env company name title url folder
      ("Script generated: ".toList ++ basename g.1, r.2 ++ g.2)

/- ---------------------------------------------------------------------
Helper lemmas.
--------------------------------------------------------------------- -/

theorem isPrefixOf_append_self (l t : List Char) : l.isPrefixOf (l ++ t) = true := by
  simp [List.isPrefixOf_iff_prefix]

theorem not_http_prefix_of_https (t : List Char) :
    "http://".toList.isPrefixOf ("https://".toList ++ t) = false := by
  rw [Bool.eq_false_iff]
  intro h
  obtain ⟨u, hu⟩ := List.isPrefixOf_iff_prefix.mp h
  have h5 := congrArg (List.take 5) hu
  rw [show ("http://".toList ++ u).take 5 = "http:".toList from rfl,
    show ("https://".toList ++ t).take 5 = "https".toList from rfl] at h5
  exact absurd h5 (by decide)

/-- A URL matching `^https?://` decomposes, and `urlparse` computes its
scheme and netloc accordingly. -/
theorem urlparse_scheme_cases (url : List Char) (h : startsWithHttpScheme url = true) :
    (∃ t, url = "http://".toList ++ t ∧
      urlparse url = ("http".toList, t.takeWhile (fun c => c ≠ '/' && c ≠ '?' && c ≠ '#'))) ∨
    (∃ t, url = "https://".toList ++ t ∧
      urlparse url = ("https".toList, t.takeWhile (fun c => c ≠ '/' && c ≠ '?' && c ≠ '#'))) := by
  rw [startsWithHttpScheme, Bool.or_eq_true] at h
  rcases h with h | h
  · obtain ⟨t, ht⟩ := List.isPrefixOf_iff_prefix.mp h
    subst ht
    refine Or.inl ⟨t, rfl, ?_⟩
    rw [urlparse, if_pos (isPrefixOf_append_self _ _)]
    rw [show ("http://".toList ++ t).drop 7 = t from rfl]
  · obtain ⟨t, ht⟩ := List.isPrefixOf_iff_prefix.mp h
    subst ht
    refine Or.inr ⟨t, rfl, ?_⟩
    rw [urlparse, if_neg (by simp [not_http_prefix_of_https]),
      if_pos (isPrefixOf_append_self _ _)]
    rw [show ("https://".toList ++ t).drop 8 = t from rfl]

/-- Anything of the form `scheme://netloc ++ X` built by `urlparse` from a
URL matching `^https?://` again matches `^https?://`. -/
theorem startsWithHttpScheme_base (url X : List Char)
    (h : startsWithHttpScheme url = true) :
    startsWithHttpScheme ((urlparse url).1 ++ "://".toList ++ (urlparse url).2 ++ X)
      = true := by
  rcases urlparse_scheme_cases url h with ⟨t, _, hu⟩ | ⟨t, _, hu⟩ <;> rw [hu] <;>
    rw [startsWithHttpScheme, Bool.or_eq_true]
  · exact Or.inl (by
      rw [show ("http".toList, t.takeWhile (fun c => c ≠ '/' && c ≠ '?' && c ≠ '#')).1
            ++ "://".toList
          = "http://".toList from rfl, List.append_assoc]
      exact isPrefixOf_append_self _ _)
  · exact Or.inr (by
      rw [show ("https".toList, t.takeWhile (fun c => c ≠ '/' && c ≠ '?' && c ≠ '#')).1
            ++ "://".toList
          = "https://".toList from rfl, List.append_assoc]
      exact isPrefixOf_append_self _ _)

/- ---------------------------------------------------------------------
Claims.
--------------------------------------------------------------------- -/

/-- C5: `sanitize_filename` is a pure total function; it is idempotent,
every character of its output lies in `[A-Za-z0-9._-]`, the output is never
longer than the input, the surviving characters keep their relative order
(the output is a sublist of the input), and empty input yields empty
output. -/
theorem C5_sanitize_props (s : List Char) :
    sanitize_filename (sanitize_filename s) = sanitize_filename s
    ∧ (∀ c ∈ sanitize_filename s, safeFilenameChar c = true)
    ∧ (sanitize_filename s).length ≤ s.length
    ∧ (sanitize_filename s).Sublist s
    ∧ sanitize_filename [] = [] := by
  refine ⟨?_, ?_, ?_, ?_, rfl⟩
  · exact List.filter_eq_self.mpr (fun a ha => List.of_mem_filter ha)
  · exact fun c hc => List.of_mem_filter hc
  · exact List.length_filter_le _ _
  · exact List.filter_sublist _

/-- C1 as stated is false: with page URL `https://ex.com/page` (which has
scheme https) and a fetched body whose first icon link has
`href="httpx"`, `get_favicon_url` returns `"httpx"` unchanged — the code
tests `href.startswith("http")`, not a full `^https?://` match — and
`"httpx"` does not match `^https?://`. -/
theorem C1_counterexample :
    startsWithHttpScheme ("https://ex.com/page".toList) = true
    ∧ get_favicon_url ("https://ex.com/page".toList)
        (some [⟨some ("icon".toList), some ("httpx".toList)⟩]) = "httpx".toList
    ∧ startsWithHttpScheme ("httpx".toList) = false := by
  exact ⟨by decide, by decide, by decide⟩

/-- C1 (amended): for every pageUrl matching `^https?://` and every fetch
outcome, `get_favicon_url` never raises (it is total, the `except` arm
covering every fetch/parse error), and its result matches `^https?://`
provided that, when the first icon link's non-empty href starts with
`"http"`, that href itself matches `^https?://`; an href starting with
`"http"` but not matching `^https?://` is returned unchanged instead. -/
theorem C1_favicon_scheme (url : List Char) (fetched : Option (List LinkTag))
    (hurl : startsWithHttpScheme url = true)
    (hhref : ∀ links href, fetched = some links → firstIconHref links = some href →
      "http".toList.isPrefixOf href = true → startsWithHttpScheme href = true) :
    startsWithHttpScheme (get_favicon_url url fetched) = true := by
  match fetched with
  | none => exact startsWithHttpScheme_base url ("/favicon.ico".toList) hurl
  | some links =>
    rcases hf : firstIconHref links with _ | href
    · simp only [get_favicon_url, hf]
      exact startsWithHttpScheme_base url ("/favicon.ico".toList) hurl
    · simp only [get_favicon_url, hf]
      by_cases hp : "http".toList.isPrefixOf href = true
      · rw [if_pos hp]
        exact hhref links href rfl hf hp
      · rw [if_neg hp]
        by_cases hs : "/".toList.isPrefixOf href = true
        · rw [if_pos hs]
          exact startsWithHttpScheme_base url href hurl
        · rw [if_neg hs]
          exact startsWithHttpScheme_base url ('/' :: href) hurl

/-- Witness for C1: page URL `https://ex.com/page` with a failed fetch. -/
theorem C1_witness :
    startsWithHttpScheme (get_favicon_url ("https://ex.com/page".toList) none) = true := by
  exact C1_favicon_scheme ("https://ex.com/page".toList) none (by decide)
    (fun links href h => by cases h)

/-- C2 as stated is false: `href="ftp://c.ex/f.png"` is absolute (it starts
with the scheme `ftp:`), so the claim requires it to be returned unchanged,
but the code's `href.startswith("http")` test fails and the origin is
prefixed instead. -/
theorem C2_counterexample :
    get_favicon_url ("https://ex.com/page".toList)
      (some [⟨some ("icon".toList), some ("ftp://c.ex/f.png".toList)⟩])
      = "https://ex.com/ftp://c.ex/f.png".toList
    ∧ "https://ex.com/ftp://c.ex/f.png".toList ≠ "ftp://c.ex/f.png".toList := by
  exact ⟨by decide, by decide⟩

/-- C2 (amended): when the fetched HTML's first (document-order) link whose
`rel` contains the case-insensitive substring `icon` has a non-empty href,
the result is: the href unchanged if it starts with `"http"` (rather than
"starts with a scheme"); origin ++ href if it starts with `/`; and
origin ++ "/" ++ href otherwise — where origin is scheme `++ "://" ++` host
of the page URL, the scheme being `http` or `https`. -/
theorem C2_icon_href_resolution (url : List Char) (links : List LinkTag)
    (href : List Char)
    (hurl : startsWithHttpScheme url = true)
    (hh : firstIconHref links = some href) :
    get_favicon_url url (some links) =
      (if "http".toList.isPrefixOf href then href
       else if "/".toList.isPrefixOf href then
         (urlparse url).1 ++ "://".toList ++ (urlparse url).2 ++ href
       else (urlparse url).1 ++ "://".toList ++ (urlparse url).2 ++ '/' :: href)
    ∧ ((urlparse url).1 = "http".toList ∨ (urlparse url).1 = "https".toList) := by
  constructor
  · simp only [get_favicon_url, hh]
  · rcases urlparse_scheme_cases url hurl with ⟨t, _, hu⟩ | ⟨t, _, hu⟩ <;> rw [hu]
    · exact Or.inl rfl
    · exact Or.inr rfl

/-- Witness for C2: the spec's two examples — a root-relative href is
resolved against the origin, and an absolute href is passed through. -/
theorem C2_witness :
    get_favicon_url ("https://ex.com/page".toList)
      (some [⟨some ("icon".toList), some ("/f.png".toList)⟩])
      = "https://ex.com/f.png".toList
    ∧ get_favicon_url ("https://ex.com/page".toList)
        (some [⟨some ("shortcut icon".toList), some ("https://cdn.ex.com/f.png".toList)⟩])
        = "https://cdn.ex.com/f.png".toList := by
  constructor
  · exact ((C2_icon_href_resolution ("https://ex.com/page".toList)
      [⟨some ("icon".toList), some ("/f.png".toList)⟩] ("/f.png".toList)
      (by decide) (by decide)).1).trans (by decide)
  · exact ((C2_icon_href_resolution ("https://ex.com/page".toList)
      [⟨some ("shortcut icon".toList), some ("https://cdn.ex.com/f.png".toList)⟩]
      ("https://cdn.ex.com/f.png".toList)
      (by decide) (by decide)).1).trans (by decide)

/-- C3: whenever the fetch fails (any fetch/parse error, `fetched = none`)
or no usable icon link with a non-empty href exists in the fetched
document, the result is exactly `{scheme}://{host}/favicon.ico` derived
from the page URL.  No error propagates: `get_favicon_url` is total.  The
`^https?://` hypothesis restricts the statement to the URLs on which the
`urlparse` model is faithful. -/
theorem C3_fallback (url : List Char) (fetched : Option (List LinkTag))
    (_hurl : startsWithHttpScheme url = true)
    (hno : fetched = none ∨ ∃ links, fetched = some links ∧ firstIconHref links = none) :
    get_favicon_url url fetched =
      (urlparse url).1 ++ "://".toList ++ (urlparse url).2 ++ "/favicon.ico".toList := by
  rcases hno with rfl | ⟨links, rfl, hf⟩
  · rfl
  · simp only [get_favicon_url, hf]
    rfl

/-- Witness for C3: the spec's example — a failing fetch for
`https://ex.com/page` yields `https://ex.com/favicon.ico`. -/
theorem C3_witness :
    get_favicon_url ("https://ex.com/page".toList) none
      = "https://ex.com/favicon.ico".toList := by
  exact (C3_fallback ("https://ex.com/page".toList) none (by decide) (Or.inl rfl)).trans
    (by decide)

theorem path_join_no_slash (a b : List Char) (ha1 : a ≠ []) (ha2 : a.getLast? ≠ some '/')
    (hb : b.head? ≠ some '/') : path_join a b = a ++ '/' :: b := by
  rw [path_join, if_neg hb, if_neg ?_]
  simp [List.isEmpty_iff, ha1, ha2]

/-- Every character of a sanitized token is in the safe class, so a path
segment `{safe_company}.{safe_name}` never starts with `/`. -/
theorem sanitize_seg_head (company name : List Char) :
    (sanitize_filename company ++ '.' :: sanitize_filename name).head? ≠ some '/' := by
  cases h : sanitize_filename company with
  | nil => simp [h]
  | cons a l =>
    have ha : safeFilenameChar a = true :=
      List.of_mem_filter (by rw [show List.filter safeFilenameChar company
        = sanitize_filename company from rfl, h]; exact List.mem_cons_self a l)
    simp only [h, List.cons_append, List.head?_cons, ne_eq, Option.some.injEq]
    intro heq
    rw [heq] at ha
    exact absurd ha (by decide)

/-- Likewise a segment tail `.{safe_name}` never ends with `/`. -/
theorem dot_name_last (name : List Char) :
    ('.' :: sanitize_filename name).getLast? ≠ some '/' := by
  intro h
  rcases List.mem_cons.mp (List.mem_of_getLast?_eq_some h) with h' | h'
  · exact absurd h' (by decide)
  · exact absurd (List.of_mem_filter h') (by decide)

/-- Appending a list that does not end in `/` gives a path that does not
end in `/`. -/
theorem getLast_append_ne (x y : List Char) (hy : y ≠ [])
    (h : y.getLast? ≠ some '/') : (x ++ y).getLast? ≠ some '/' := by
  rw [List.getLast?_append]
  cases hg : y.getLast? with
  | none => rw [List.getLast?_eq_none_iff] at hg; exact absurd hg hy
  | some c =>
    rw [Option.or_some]
    rw [hg] at h
    exact h

/-- `os.makedirs(p, exist_ok=True)` is idempotent on the directory set. -/
theorem makedirs_fs_idem (fs : List (List Char)) (p : List Char) :
    makedirs_fs (makedirs_fs fs p) p = makedirs_fs fs p := by
  by_cases h : p ∈ fs <;> simp [makedirs_fs, h]

/-- C4: for every base folder (non-empty, without a trailing separator) and
every pair of strings, the derived app folder is
`base/app/{sanitize(company)}.{sanitize(name)}`, the script written by
`generate_script` lands at
`.../webnode.{sanitize(company)}.{sanitize(name)}.py` inside it, the icon
filename is `webnode.{sanitize(company)}.{sanitize(name)}.ico`, and
directory creation is idempotent, so repeated calls with the same inputs
yield the same paths (the functions are pure) without error. -/
theorem C4_artifact_naming (env : Env) (base company name title url : List Char)
    (fs : List (List Char)) (hb1 : base ≠ []) (hb2 : base.getLast? ≠ some '/') :
    (get_app_folder base company name).1
      = base ++ "/app/".toList
        ++ sanitize_filename company ++ '.' :: sanitize_filename name
    ∧ (generate_script env company name title url base).1
      = (get_app_folder base company name).1
        ++ '/' :: ("webnode.".toList ++ sanitize_filename company
          ++ '.' :: sanitize_filename name ++ ".py".toList)
    ∧ icon_filename company name
      = "webnode.".toList ++ sanitize_filename company
        ++ '.' :: sanitize_filename name ++ ".ico".toList
    ∧ makedirs_fs (makedirs_fs fs (get_app_folder base company name).1)
        (get_app_folder base company name).1
      = makedirs_fs fs (get_app_folder base company name).1 := by
  have happ : (get_app_folder base company name).1
      = base ++ "/app/".toList
        ++ sanitize_filename company ++ '.' :: sanitize_filename name := by
    show path_join (path_join base ("app".toList))
        (sanitize_filename company ++ '.' :: sanitize_filename name) = _
    rw [path_join_no_slash base ("app".toList) hb1 hb2 (by decide),
      path_join_no_slash _ _ (by simp)
        (getLast_append_ne base ('/' :: "app".toList) (by decide) (by decide))
        (sanitize_seg_head company name)]
    simp only [List.append_assoc]
    rfl
  refine ⟨happ, ?_, rfl, makedirs_fs_idem fs _⟩
  show path_join (get_app_folder base company name).1 (script_filename company name) = _
  rw [happ, path_join_no_slash _ _ (by simp)
    (getLast_append_ne _ ('.' :: sanitize_filename name) (by simp) (dot_name_last name))
    (by rw [show (script_filename company name).head? = some 'w' from rfl]; decide)]
  rfl

/-- Witness for C4: the spec's example — company `Acme Inc!` and name
`My App` give folder `base/app/AcmeInc.MyApp`, and creating it twice equals
creating it once. -/
theorem C4_witness :
    (get_app_folder ("/home/u/Documents/WebNode Apps".toList)
        ("Acme Inc!".toList) ("My App".toList)).1
      = "/home/u/Documents/WebNode Apps/app/AcmeInc.MyApp".toList
    ∧ makedirs_fs (makedirs_fs []
          (get_app_folder ("/home/u/Documents/WebNode Apps".toList)
            ("Acme Inc!".toList) ("My App".toList)).1)
        (get_app_folder ("/home/u/Documents/WebNode Apps".toList)
          ("Acme Inc!".toList) ("My App".toList)).1
      = makedirs_fs []
          (get_app_folder ("/home/u/Documents/WebNode Apps".toList)
            ("Acme Inc!".toList) ("My App".toList)).1 := by
  have h := C4_artifact_naming
    { std_doc := "/home/u/Documents".toList, std_doc_isdir := true,
      home := "/home/u".toList, home_entries := [], wn_exists := true,
      fetched := none, icon_resp := none, printable := fun _ => true }
    ("/home/u/Documents/WebNode Apps".toList) ("Acme Inc!".toList) ("My App".toList)
    ("T".toList) ("https://ex.com".toList) [] (by decide) (by decide)
  exact ⟨h.1.trans (by decide), h.2.2.2⟩

/-- Performing the two sequential `str.replace` calls on the icon path is
the same as simultaneously doubling every backslash and escaping every
double quote: the two passes do not interfere. -/
theorem double_replace_flatMap (s : List Char) :
    str_replace1 (str_replace1 s '\\' ['\\', '\\']) '"' ['\\', '"']
      = s.flatMap (fun c => if c = '\\' then ['\\', '\\']
          else if c = '"' then ['\\', '"'] else [c]) := by
  induction s with
  | nil => rfl
  | cons c cs ih =>
    rw [str_replace1, str_replace1, List.flatMap_cons, List.flatMap_append,
      List.flatMap_cons]
    rw [str_replace1, str_replace1] at ih
    rw [ih]
    congr 1
    by_cases h1 : c = '\\'
    · subst h1
      rfl
    · by_cases h2 : c = '"'
      · subst h2
        rfl
      · simp [List.flatMap_cons, List.flatMap_nil, h1, h2]

/-- C6: for every title, url and iconPath, the rendered launcher script is
the fixed template around: the title with every `"` backslash-escaped, the
iconPath with every backslash doubled and every `"` backslash-escaped, and
the trimmed url as a quoted string literal that round-trips (evaluating the
emitted literal yields exactly the trimmed url).  `printable` is the
Unicode printability table consulted by `repr`; the statement holds for
every table. -/
theorem C6_render_escaping (printable : Char → Bool) (title url icon_path : List Char) :
    script_from_template printable title url icon_path
      = SCRIPT_TEMPLATE_pre
        ++ title.flatMap (fun c => if c = '"' then ['\\', '"'] else [c])
        ++ SCRIPT_TEMPLATE_mid1
        ++ icon_path.flatMap (fun c => if c = '\\' then ['\\', '\\']
            else if c = '"' then ['\\', '"'] else [c])
        ++ SCRIPT_TEMPLATE_mid2
        ++ py_repr printable (py_strip url)
        ++ SCRIPT_TEMPLATE_suf
    ∧ py_eval_str (py_repr printable (py_strip url)) = some (py_strip url) := by
  refine ⟨?_, py_eval_py_repr printable (py_strip url)⟩
  rw [script_from_template, double_replace_flatMap]
  rfl

/-- C7: if any of the four fields is empty after trimming, or the trimmed
url fails the `^https?://` rule, generation reports a validation message
and performs no filesystem operation at all. -/
theorem C7_validation_no_fs (env : Env) (company name title url : List Char)
    (h : py_strip company = [] ∨ py_strip name = [] ∨ py_strip title = []
      ∨ py_strip url = [] ∨ validate_url (py_strip url) = false) :
    (on_generate env company name title url).2 = []
    ∧ ((on_generate env company name title url).1 = "All fields are required.".toList
      ∨ (on_generate env company name title url).1
          = "URL must start with http:// or https://".toList) := by
  simp only [on_generate]
  by_cases hb : ((py_strip company).isEmpty || (py_strip name).isEmpty
      || (py_strip title).isEmpty || (py_strip url).isEmpty) = true
  · rw [if_pos hb]
    exact ⟨rfl, Or.inl rfl⟩
  · rw [if_neg hb]
    have hv : validate_url (py_strip url) = false := by
      simp only [Bool.or_eq_true, List.isEmpty_iff, not_or] at hb
      obtain ⟨⟨⟨hb1, hb2⟩, hb3⟩, hb4⟩ := hb
      rcases h with h | h | h | h | h
      · exact absurd h hb1
      · exact absurd h hb2
      · exact absurd h hb3
      · exact absurd h hb4
      · exact h
    rw [if_pos (by rw [hv]; rfl)]
    exact ⟨rfl, Or.inr rfl⟩

/-- Witness for C7: a generation request with an empty title yields the
validation message and an empty effect list. -/
theorem C7_witness :
    (on_generate
        { std_doc := "/home/u/Documents".toList, std_doc_isdir := true,
          home := "/home/u".toList, home_entries := [], wn_exists := true,
          fetched := none, icon_resp := none, printable := fun _ => true }
        ("Acme".toList) ("App".toList) [] ("https://ex.com".toList)).2 = []
    ∧ ((on_generate
        { std_doc := "/home/u/Documents".toList, std_doc_isdir := true,
          home := "/home/u".toList, home_entries := [], wn_exists := true,
          fetched := none, icon_resp := none, printable := fun _ => true }
        ("Acme".toList) ("App".toList) [] ("https://ex.com".toList)).1
          = "All fields are required.".toList
      ∨ (on_generate
          { std_doc := "/home/u/Documents".toList, std_doc_isdir := true,
            home := "/home/u".toList, home_entries := [], wn_exists := true,
            fetched := none, icon_resp := none, printable := fun _ => true }
          ("Acme".toList) ("App".toList) [] ("https://ex.com".toList)).1
            = "URL must start with http:// or https://".toList) :=
  C7_validation_no_fs _ _ _ _ _ (Or.inr (Or.inr (Or.inl (by decide))))

/-- The script path returned by `generate_script` and the write of the
rendered script among its effects. -/
theorem generate_script_spec (env : Env) (c n t u folder : List Char) :
    (generate_script env c n t u folder).1
      = path_join (get_app_folder folder c n).1 (script_filename c n)
    ∧ FSOp.write_text (path_join (get_app_folder folder c n).1 (script_filename c n))
        (script_from_template env.printable t u
          (path_join (get_app_folder folder c n).1 (icon_filename c n)))
      ∈ (generate_script env c n t u folder).2 := by
  constructor
  · rfl
  · simp [generate_script, List.mem_append]

/-- C8: for every valid identity (all four fields non-empty after trimming
and a url passing the prefix rule) and a located documents folder, when the
icon download fails — a raised request (`none`), a non-200 status, or an
empty body — `download_favicon` returns `false` with no filesystem effect
and without raising, and generation still succeeds: the status reports the
generated script, whose path is the expected derived script path, and the
rendered launcher script is written there. -/
theorem C8_icon_failure_tolerated (env : Env) (company name title url d : List Char)
    (hc : py_strip company ≠ []) (hn : py_strip name ≠ []) (ht : py_strip title ≠ [])
    (hu : py_strip url ≠ []) (hv : validate_url (py_strip url) = true)
    (hd : get_documents_folder env = some d)
    (hic : env.icon_resp = none
      ∨ ∃ st body, env.icon_resp = some (st, body) ∧ (st ≠ 200 ∨ body = [])) :
    (∀ p, download_favicon env.icon_resp p = (false, []))
    ∧ (on_generate env company name title url).1
        = "Script generated: ".toList
          ++ basename (generate_script env (py_strip company) (py_strip name)
              (py_strip title) (py_strip url) (path_join d ("WebNode Apps".toList))).1
    ∧ (generate_script env (py_strip company) (py_strip name) (py_strip title)
          (py_strip url) (path_join d ("WebNode Apps".toList))).1
        = path_join (get_app_folder (path_join d ("WebNode Apps".toList))
            (py_strip company) (py_strip name)).1
            (script_filename (py_strip company) (py_strip name))
    ∧ FSOp.write_text
        (generate_script env (py_strip company) (py_strip name) (py_strip title)
          (py_strip url) (path_join d ("WebNode Apps".toList))).1
        (script_from_template env.printable (py_strip title) (py_strip url)
          (path_join (get_app_folder (path_join d ("WebNode Apps".toList))
              (py_strip company) (py_strip name)).1
            (icon_filename (py_strip company) (py_strip name))))
      ∈ (on_generate env company name title url).2 := by
  have hdl : ∀ p, download_favicon env.icon_resp p = (false, []) := by
    intro p
    rcases hic with h | ⟨st, body, h, hf⟩
    · rw [h]
      rfl
    · rw [h, download_favicon]
      rw [if_neg ?_]
      rcases hf with hf | hf
      · simp [hf]
      · simp [hf]
  have hne : ¬(((py_strip company).isEmpty || (py_strip name).isEmpty
      || (py_strip title).isEmpty || (py_strip url).isEmpty) = true) := by
    simp [List.isEmpty_iff, hc, hn, ht, hu]
  have hv' : ¬((!validate_url (py_strip url)) = true) := by
    rw [hv]
    decide
  have hwn1 : (get_webnode_apps_folder env).1
      = some (path_join d ("WebNode Apps".toList)) := by
    by_cases hw : env.wn_exists = true <;>
      simp [get_webnode_apps_folder, hd, hw]
  have hon : on_generate env company name title url
      = ("Script generated: ".toList
          ++ basename (generate_script env (py_strip company) (py_strip name)
              (py_strip title) (py_strip url) (path_join d ("WebNode Apps".toList))).1,
        (get_webnode_apps_folder env).2
          ++ (generate_script env (py_strip company) (py_strip name) (py_strip title)
              (py_strip url) (path_join d ("WebNode Apps".toList))).2) := by
    simp only [on_generate, if_neg hne, if_neg hv', hwn1]
  refine ⟨hdl, ?_, (generate_script_spec env (py_strip company) (py_strip name)
      (py_strip title) (py_strip url) (path_join d ("WebNode Apps".toList))).1, ?_⟩
  · rw [hon]
  · rw [hon]
    refine List.mem_append_right _ ?_
    have hmem := (generate_script_spec env (py_strip company) (py_strip name)
      (py_strip title) (py_strip url) (path_join d ("WebNode Apps".toList))).2
    have hpath := (generate_script_spec env (py_strip company) (py_strip name)
      (py_strip title) (py_strip url) (path_join d ("WebNode Apps".toList))).1
    rw [hpath]
    exact hmem

/-- Witness for C8: a simulated 500 response for the icon — the download
reports failure, and generation still succeeds, naming the generated
script. -/
theorem C8_witness :
    download_favicon (some (500, [1, 2, 3])) ("/p.ico".toList) = (false, [])
    ∧ (on_generate
        { std_doc := "/home/u/Documents".toList, std_doc_isdir := true,
          home := "/home/u".toList, home_entries := [], wn_exists := true,
          fetched := none, icon_resp := some (500, [1, 2, 3]),
          printable := fun c => 32 ≤ c.toNat && c.toNat < 127 }
        ("Acme".toList) ("App".toList) ("T".toList) ("https://ex.com".toList)).1
        = "Script generated: webnode.Acme.App.py".toList := by
  have h := C8_icon_failure_tolerated
    { std_doc := "/home/u/Documents".toList, std_doc_isdir := true,
      home := "/home/u".toList, home_entries := [], wn_exists := true,
      fetched := none, icon_resp := some (500, [1, 2, 3]),
      printable := fun c => 32 ≤ c.toNat && c.toNat < 127 }
    ("Acme".toList) ("App".toList) ("T".toList) ("https://ex.com".toList)
    ("/home/u/Documents".toList)
    (by decide) (by decide) (by decide) (by decide) (by decide) (by decide)
    (Or.inr ⟨500, [1, 2, 3], rfl, Or.inl (by decide)⟩)
  exact ⟨h.1 ("/p.ico".toList), h.2.1.trans (by decide)⟩

/-- C9: `get_documents_folder` returns the platform-standard documents
directory when it is a directory; otherwise it keeps the home entries that
are directories and whose name contains `doc` case-insensitively and
returns the one with the shortest name (as a full path under home); with no
candidate it returns `none`. -/
theorem C9_documents_folder (env : Env) :
    (env.std_doc_isdir = true → get_documents_folder env = some env.std_doc)
    ∧ (env.std_doc_isdir = false → doc_candidates env = [] →
        get_documents_folder env = none)
    ∧ (env.std_doc_isdir = false → doc_candidates env ≠ [] →
        ∃ p, get_documents_folder env = some p ∧ p ∈ doc_candidates env
          ∧ ∀ q ∈ doc_candidates env, p.length ≤ q.length)
    ∧ (env.std_doc_isdir = false → doc_candidates env ≠ [] →
        env.home ≠ [] → env.home.getLast? ≠ some '/' →
        (∀ e ∈ env.home_entries, e.1.head? ≠ some '/') →
        ∃ nm, get_documents_folder env = some (env.home ++ '/' :: nm)
          ∧ (nm, true) ∈ env.home_entries
          ∧ py_contains ("doc".toList) (nm.map Char.toLower) = true
          ∧ ∀ e ∈ env.home_entries, e.2 = true →
              py_contains ("doc".toList) (e.1.map Char.toLower) = true →
              nm.length ≤ e.1.length) := by
  have hmin : env.std_doc_isdir = false → doc_candidates env ≠ [] →
      ∃ p, get_documents_folder env = some p ∧ p ∈ doc_candidates env
        ∧ ∀ q ∈ doc_candidates env, p.length ≤ q.length := by
    intro hstd hne
    have hperm := List.perm_insertionSort byLen (doc_candidates env)
    have hsorted := List.sorted_insertionSort byLen (doc_candidates env)
    cases hsort : List.insertionSort byLen (doc_candidates env) with
    | nil =>
      rw [hsort] at hperm
      exact absurd hperm.symm.eq_nil hne
    | cons p rest =>
      refine ⟨p, ?_, ?_, ?_⟩
      · simp [get_documents_folder, hstd, hsort]
      · exact hperm.subset (hsort ▸ List.mem_cons_self p rest)
      · intro q hq
        have hq' : q ∈ p :: rest := hsort ▸ hperm.mem_iff.mpr hq
        rcases List.mem_cons.mp hq' with rfl | hq'
        · exact Nat.le_refl _
        · rw [hsort] at hsorted
          exact (List.sorted_cons.mp hsorted).1 q hq'
  refine ⟨fun h => by simp [get_documents_folder, h], ?_, hmin, ?_⟩
  · intro hstd hnil
    simp [get_documents_folder, hstd, hnil]
  · intro hstd hne hh1 hh2 hh3
    obtain ⟨p, hp, hpmem, hple⟩ := hmin hstd hne
    obtain ⟨e, hef, hpe⟩ := List.mem_map.mp hpmem
    obtain ⟨nm, b⟩ := e
    have hkept := List.of_mem_filter hef
    have hemem := List.mem_of_mem_filter hef
    rw [Bool.and_eq_true] at hkept
    have hb : b = true := hkept.1
    subst hb
    have hjoin : path_join env.home nm = env.home ++ '/' :: nm :=
      path_join_no_slash env.home nm hh1 hh2 (hh3 (nm, true) hemem)
    refine ⟨nm, ?_, hemem, hkept.2, ?_⟩
    · rw [hp, ← hpe, hjoin]
    · intro e' he' hd' hc'
      obtain ⟨nm', b'⟩ := e'
      have hb' : b' = true := hd'
      subst hb'
      have hq : path_join env.home nm' ∈ doc_candidates env := by
        refine List.mem_map.mpr ⟨(nm', true), ?_, rfl⟩
        refine List.mem_filter.mpr ⟨he', ?_⟩
        rw [Bool.and_eq_true]
        exact ⟨rfl, hc'⟩
      have hple' := hple _ hq
      rw [← hpe, hjoin] at hple'
      rw [path_join_no_slash env.home nm' hh1 hh2 (hh3 (nm', true) he')] at hple'
      simp only [List.length_append, List.length_cons] at hple'
      show nm.length ≤ nm'.length
      omega

/-- Witness for C9: the scan branch — with no standard documents directory
and home entries `documents`, `Docs`, `code` and a non-directory `mydoc`,
the shortest matching directory name `Docs` is chosen. -/
theorem C9_witness :
    get_documents_folder
      { std_doc := "/home/u/Documents".toList, std_doc_isdir := false,
        home := "/home/u".toList,
        home_entries := [("documents".toList, true), ("Docs".toList, true),
          ("code".toList, true), ("mydoc".toList, false)],
        wn_exists := true, fetched := none, icon_resp := none,
        printable := fun _ => true }
      = some ("/home/u/Docs".toList) := by
  have h := (C9_documents_folder
    { std_doc := "/home/u/Documents".toList, std_doc_isdir := false,
      home := "/home/u".toList,
      home_entries := [("documents".toList, true), ("Docs".toList, true),
        ("code".toList, true), ("mydoc".toList, false)],
      wn_exists := true, fetched := none, icon_resp := none,
      printable := fun _ => true }).2.2.1 (by decide) (by decide)
  obtain ⟨p, hp, hpmem, hple⟩ := h
  have hcand : doc_candidates
      { std_doc := "/home/u/Documents".toList, std_doc_isdir := false,
        home := "/home/u".toList,
        home_entries := [("documents".toList, true), ("Docs".toList, true),
          ("code".toList, true), ("mydoc".toList, false)],
        wn_exists := true, fetched := none, icon_resp := none,
        printable := fun _ => true }
      = ["/home/u/documents".toList, "/home/u/Docs".toList] := by decide
  rw [hcand] at hpmem hple
  rcases List.mem_cons.mp hpmem with rfl | hpm2
  · have hcontra := hple ("/home/u/Docs".toList) (by decide)
    exact absurd hcontra (by decide)
  · rcases List.mem_cons.mp hpm2 with rfl | hpm3
    · rw [hp]
    · exact absurd hpm3 (List.not_mem_nil p)

/-- C10: company `!!!` and name `???` are non-empty as raw strings, so
validation passes (it checks only raw non-emptiness, never the sanitized
tokens); sanitization yields empty tokens, the derived folder segment
degenerates to `.` (so the artifacts land directly in `base/app`, as the
normalized paths show), and generation succeeds with filenames
`webnode...py` and `webnode...ico` instead of being rejected. -/
theorem C10_degenerate_tokens :
    py_strip ("!!!".toList) ≠ [] ∧ py_strip ("???".toList) ≠ []
    ∧ sanitize_filename ("!!!".toList) = [] ∧ sanitize_filename ("???".toList) = []
    ∧ (get_app_folder ("/home/u/Documents/WebNode Apps".toList)
          ("!!!".toList) ("???".toList)).1
        = "/home/u/Documents/WebNode Apps/app/.".toList
    ∧ script_filename ("!!!".toList) ("???".toList) = "webnode...py".toList
    ∧ icon_filename ("!!!".toList) ("???".toList) = "webnode...ico".toList
    ∧ (on_generate
        { std_doc := "/home/u/Documents".toList, std_doc_isdir := true,
          home := "/home/u".toList, home_entries := [], wn_exists := true,
          fetched := none, icon_resp := none,
          printable := fun c => 32 ≤ c.toNat && c.toNat < 127 }
        ("!!!".toList) ("???".toList) ("T".toList) ("https://ex.com".toList)).1
        = "Script generated: webnode...py".toList
    ∧ FSOp.write_text ("/home/u/Documents/WebNode Apps/app/./webnode...py".toList)
        (script_from_template (fun c => 32 ≤ c.toNat && c.toNat < 127) ("T".toList)
          ("https://ex.com".toList)
          ("/home/u/Documents/WebNode Apps/app/./webnode...ico".toList))
      ∈ (on_generate
          { std_doc := "/home/u/Documents".toList, std_doc_isdir := true,
            home := "/home/u".toList, home_entries := [], wn_exists := true,
            fetched := none, icon_resp := none,
            printable := fun c => 32 ≤ c.toNat && c.toNat < 127 }
          ("!!!".toList) ("???".toList) ("T".toList) ("https://ex.com".toList)).2
    ∧ strip_dot_segments ("/home/u/Documents/WebNode Apps/app/./webnode...py".toList)
        = "/home/u/Documents/WebNode Apps/app/webnode...py".toList := by
  set_option maxRecDepth 4096 in decide

end Webnode
